import Mathlib

/-!
Verification of the FlipperSkylanders repository.

The repository has two Python source files:
  * convert_nfc_to_json.py : parses Flipper Zero NFC text dumps into JSON
    records (parse_flipper_nfc_file) and walks a directory tree converting
    every file (convert_all_nfc_files);
  * enrich_character_data.py : normalizes character names (normalize_name),
    looks them up in a static table (find_character_data) and merges profile
    data into the JSON documents (enrich_json_file).

This file gives a shallow embedding of those functions.  Text is modelled as
Lean String / List Char; the specific regular expressions used by the code
are embedded as deterministic scanning functions that reproduce Python's
leftmost-match and greedy/lazy backtracking behaviour for exactly those
patterns.  Python character classes are modelled at ASCII level (the regex
class \s is the six ASCII whitespace characters; \w and hex classes are the
ASCII ranges).  Diagnostic print calls are modelled as a list of warning
strings returned alongside the parse record.
-/

/- ===== Character classes (ASCII model of the regex classes) ===== -/

/-- The regex class [0-9A-F] under re.IGNORECASE, i.e. ASCII hex digits of
either case.  Also the character set '0123456789ABCDEFabcdef' used by the
ATQA/SAK cleanup filters in convert_nfc_to_json.py lines 34 and 40. -/
def isHexCI (c : Char) : Bool :=
  (48 ≤ c.toNat && c.toNat ≤ 57) || (65 ≤ c.toNat && c.toNat ≤ 70) ||
    (97 ≤ c.toNat && c.toNat ≤ 102)

/-- The regex class [0-9A-F] without re.IGNORECASE: digits and uppercase
A-F only (used by the ATQA and SAK patterns, lines 31 and 37). -/
def isUpperHex (c : Char) : Bool :=
  (48 ≤ c.toNat && c.toNat ≤ 57) || (65 ≤ c.toNat && c.toNat ≤ 70)

/-- The regex class \s, modelled as the six ASCII whitespace characters
(space, tab, newline, carriage return, vertical tab, form feed). -/
def pySpace (c : Char) : Bool :=
  c.toNat == 32 || c.toNat == 9 || c.toNat == 10 || c.toNat == 13 ||
    c.toNat == 11 || c.toNat == 12

/-- The regex class \d (ASCII digits). -/
def isDigitChar (c : Char) : Bool := 48 ≤ c.toNat && c.toNat ≤ 57

/-- The regex class \w at ASCII level: digits, letters and underscore. -/
def isWordChar (c : Char) : Bool :=
  (48 ≤ c.toNat && c.toNat ≤ 57) || (65 ≤ c.toNat && c.toNat ≤ 90) ||
    (97 ≤ c.toNat && c.toNat ≤ 122) || c.toNat == 95

/-- Python str.upper on one character, at ASCII level. -/
def pyUpperChar (c : Char) : Char :=
  if _h : 97 ≤ c.toNat ∧ c.toNat ≤ 122 then
    Char.ofNatAux (c.toNat - 32) (Or.inl (by omega))
  else c

/-- Python str.lower on one character, at ASCII level. -/
def pyLowerChar (c : Char) : Char :=
  if _h : 65 ≤ c.toNat ∧ c.toNat ≤ 90 then
    Char.ofNatAux (c.toNat + 32) (Or.inl (by omega))
  else c

/- ===== Elementary string operations used by the Python code ===== -/

/-- Does the pattern (first argument) occur as a prefix of the text
(second argument), comparing characters exactly? -/
def matchStrExact : List Char → List Char → Bool
  | [], _ => true
  | _ :: _, [] => false
  | p :: ps, c :: cs => (p == c) && matchStrExact ps cs

/-- Does the pattern occur as a prefix of the text, comparing characters
up to ASCII case (re.IGNORECASE literal matching)? -/
def matchStrCI : List Char → List Char → Bool
  | [], _ => true
  | _ :: _, [] => false
  | p :: ps, c :: cs => (pyLowerChar p == pyLowerChar c) && matchStrCI ps cs

/-- Python str.strip(): remove leading and trailing whitespace. -/
def pyStrip (l : List Char) : List Char :=
  ((l.dropWhile pySpace).reverse.dropWhile pySpace).reverse

/-- Python str.strip() on a String. -/
def pyStripS (s : String) : String := String.mk (pyStrip s.data)

/-- Fuelled worker for pyReplace: scan left to right, replacing each
non-overlapping occurrence of the pattern and continuing after the
replacement, exactly as Python str.replace does.  One unit of fuel is spent
per character position, so fuel = length of the text always suffices for a
non-empty pattern. -/
def pyReplaceF (pat rep : List Char) : Nat → List Char → List Char
  | 0, s => s
  | _, [] => []
  | fuel + 1, c :: cs =>
    if matchStrExact pat (c :: cs) then
      rep ++ pyReplaceF pat rep fuel ((c :: cs).drop pat.length)
    else c :: pyReplaceF pat rep fuel cs

/-- Python str.replace(pat, rep): replace every occurrence. -/
def pyReplace (s pat rep : String) : String :=
  String.mk (pyReplaceF pat.data rep.data s.data.length s.data)

/-- Does the needle (first argument) occur as a substring of the haystack
(second argument)?  Models the Python expression needle in haystack. -/
def containsSub (needle : List Char) : List Char → Bool
  | [] => needle.isEmpty
  | c :: cs => matchStrExact needle (c :: cs) || containsSub needle cs

/-- Python s.split(",") on the underlying character list. -/
def splitCommaL : List Char → List (List Char)
  | [] => [[]]
  | c :: cs =>
    if c == ',' then [] :: splitCommaL cs
    else
      match splitCommaL cs with
      | g :: gs => (c :: g) :: gs
      | [] => [[c]]

/-- Python s.split(","). -/
def pySplitComma (s : String) : List String := (splitCommaL s.data).map String.mk

/- ===== The UID regex =====
convert_nfc_to_json.py line 24:
  re.search(r'UID:\s*([0-9A-F\s]+?)(?:\n|$)', content,
            re.IGNORECASE | re.MULTILINE)
-/

/-- Character class of the UID capture group: [0-9A-F\s] with
re.IGNORECASE. -/
def uidClass (c : Char) : Bool := isHexCI c || pySpace c

/-- The terminator (?:\n|$) of the UID pattern.  Under re.MULTILINE it
succeeds exactly when the remaining text is empty or starts with a
newline (the literal newline branch and the $ branch accept the same
positions, and neither affects the capture group). -/
def uidTerm (cs : List Char) : Bool :=
  match cs with
  | [] => true
  | c :: _ => c == '\n'

/-- Lazy matching of ([0-9A-F\s]+?) followed by the terminator: return the
shortest non-empty prefix of class characters after which the terminator
succeeds, as Python's lazy quantifier does. -/
def uidLazyCap : List Char → Option (List Char)
  | [] => none
  | c :: cs =>
    if uidClass c then
      if uidTerm cs then some [c]
      else
        match uidLazyCap cs with
        | some r => some (c :: r)
        | none => none
    else none

/-- Backtracking of the greedy \s* before the capture group: Python tries
the longest whitespace run first and gives characters back one at a time.
The argument j is the number of whitespace characters currently consumed
by \s*. -/
def uidWsBack (rest : List Char) : Nat → Option (List Char)
  | 0 => uidLazyCap rest
  | j + 1 =>
    match uidLazyCap (rest.drop (j + 1)) with
    | some cap => some cap
    | none => uidWsBack rest j

/-- Match the part of the UID pattern after the literal label, starting at
rest: \s*([0-9A-F\s]+?)(?:\n|$).  Returns the capture group. -/
def matchUidTail (rest : List Char) : Option (List Char) :=
  uidWsBack rest (rest.takeWhile pySpace).length

/-- The literal label of the UID pattern. -/
def uidLabel : List Char := "UID:".data

/-- re.search of the UID pattern: scan left to right for the first position
where the whole pattern matches, returning the capture group. -/
def uidSearch : List Char → Option (List Char)
  | [] => none
  | c :: cs =>
    if matchStrCI uidLabel (c :: cs) then
      match matchUidTail ((c :: cs).drop uidLabel.length) with
      | some cap => some cap
      | none => uidSearch cs
    else uidSearch cs

/- ===== The ATQA / SAK regexes =====
convert_nfc_to_json.py lines 31 and 37:
  re.search(r'ATQA:\s*([0-9A-F\s]+)', content)
  re.search(r'SAK:\s*([0-9A-F\s]+)', content)
No flags: the label comparison and the character class are case
sensitive. -/

/-- Character class of the ATQA/SAK capture groups: [0-9A-F\s] without
re.IGNORECASE. -/
def atqaClass (c : Char) : Bool := isUpperHex c || pySpace c

/-- Backtracking of \s* before a greedy capture ([...]+): Python consumes
the longest whitespace run, then requires at least one class character for
the group; on failure it gives whitespace back one character at a time
(whitespace is itself in the class, so the group can start inside the
run). -/
def greedyWsBack (cls : Char → Bool) (rest : List Char) : Nat → Option (List Char)
  | 0 =>
    let cap := rest.takeWhile cls
    if cap.isEmpty then none else some cap
  | j + 1 =>
    let cap := (rest.drop (j + 1)).takeWhile cls
    if cap.isEmpty then greedyWsBack cls rest j else some cap

/-- Match \s*([cls]+) starting right after a literal label. -/
def matchGreedyTail (cls : Char → Bool) (rest : List Char) : Option (List Char) :=
  greedyWsBack cls rest (rest.takeWhile pySpace).length

/-- re.search of label + \s* + ([cls]+) with a case-sensitive literal
label: scan for the first position where the whole pattern matches. -/
def labelSearch (label : List Char) (cls : Char → Bool) : List Char → Option (List Char)
  | [] => none
  | c :: cs =>
    if matchStrExact label (c :: cs) then
      match matchGreedyTail cls ((c :: cs).drop label.length) with
      | some cap => some cap
      | none => labelSearch label cls cs
    else labelSearch label cls cs

/-- The literal label of the ATQA pattern. -/
def atqaLabel : List Char := "ATQA:".data

/-- The literal label of the SAK pattern. -/
def sakLabel : List Char := "SAK:".data

/- ===== The Mifare type regex =====
convert_nfc_to_json.py line 43:
  re.search(r'Mifare Classic type:\s*(\w+)', content)
-/

/-- The literal label of the Mifare type pattern. -/
def mifareLabel : List Char := "Mifare Classic type:".data

/-- Match \s*(\w+) after the Mifare label.  \w and \s are disjoint, so the
greedy \s* never backtracks: drop the whitespace run, then require at
least one word character. -/
def mifareTail (rest : List Char) : Option (List Char) :=
  let cap := (rest.dropWhile pySpace).takeWhile isWordChar
  if cap.isEmpty then none else some cap

/-- re.search of the Mifare type pattern. -/
def mifareSearch : List Char → Option (List Char)
  | [] => none
  | c :: cs =>
    if matchStrExact mifareLabel (c :: cs) then
      match mifareTail ((c :: cs).drop mifareLabel.length) with
      | some cap => some cap
      | none => mifareSearch cs
    else mifareSearch cs

/- ===== The block regex =====
convert_nfc_to_json.py line 50:
  block_pattern = r'Block\s+(\d+):\s*((?:[0-9A-F]{2}\s*){16})'
used with re.finditer(..., re.MULTILINE | re.IGNORECASE).
All components are pairwise disjoint (whitespace, digits, hex pairs, the
literal ':'), so the greedy quantifiers never backtrack and matching at a
given position is deterministic. -/

/-- Match (?:[0-9A-F]{2}\s*){n} (with re.IGNORECASE): n repetitions of two
hex characters followed by a greedy whitespace run, all captured.
Returns the captured characters and the remaining text. -/
def matchPairs : Nat → List Char → Option (List Char × List Char)
  | 0, s => some ([], s)
  | n + 1, c1 :: c2 :: s =>
    if isHexCI c1 && isHexCI c2 then
      match matchPairs n (s.dropWhile pySpace) with
      | some (g, r) => some (c1 :: c2 :: (s.takeWhile pySpace ++ g), r)
      | none => none
    else none
  | _, _ => none

/-- Decimal value of a digit string, as Python int(). -/
def digitsToNat (ds : List Char) : Nat :=
  ds.foldl (fun a c => a * 10 + (c.toNat - 48)) 0

/-- Match the block pattern after the literal label Block, i.e.
\s+(\d+):\s*((?:[0-9A-F]{2}\s*){16}).  Returns the block index, the second
capture group, and the remaining text after the match. -/
def matchBlockAt (s : List Char) : Option (Nat × List Char × List Char) :=
  if (s.takeWhile pySpace).isEmpty then none
  else
    let s1 := s.dropWhile pySpace
    let digits := s1.takeWhile isDigitChar
    if digits.isEmpty then none
    else
      match s1.drop digits.length with
      | ':' :: s2 =>
        match matchPairs 16 (s2.dropWhile pySpace) with
        | some (g, r) => some (digitsToNat digits, g, r)
        | none => none
      | _ => none

/-- The literal label of the block pattern. -/
def blockLabel : List Char := "Block".data

/-- Fuelled worker for re.finditer of the block pattern: scan left to
right; at a match continue after the matched text (matches never overlap),
otherwise advance one character.  Each step consumes at least one
character, so fuel = length of the text always suffices. -/
def blockFindF : Nat → List Char → List (Nat × List Char)
  | 0, _ => []
  | _, [] => []
  | fuel + 1, c :: cs =>
    if matchStrCI blockLabel (c :: cs) then
      match matchBlockAt ((c :: cs).drop blockLabel.length) with
      | some (n, g, r) => (n, g) :: blockFindF fuel r
      | none => blockFindF fuel cs
    else blockFindF fuel cs

/-- re.finditer of the block pattern: the list of (block index, second
capture group) for all non-overlapping matches, in text order. -/
def blockFind (s : List Char) : List (Nat × List Char) := blockFindF s.length s

/- ===== parse_flipper_nfc_file (convert_nfc_to_json.py lines 10-73) ===== -/

/-- Cleanup applied to the UID capture (line 26-28: strip, remove non-hex
characters case-insensitively, uppercase) and to the ATQA/SAK captures
(lines 33-34, 39-40: strip, keep only characters of
'0123456789ABCDEFabcdef', uppercase).  Both pipelines are the same
function. -/
def hexCleanup (cap : List Char) : String :=
  String.mk (((pyStrip cap).filter isHexCI).map pyUpperChar)

/-- Cleanup applied to a block capture (line 55): re.sub(r'\s+', '', .)
removes every whitespace character, then .upper(). -/
def cleanBlock (g : List Char) : String :=
  String.mk ((g.filter (fun c => !pySpace c)).map pyUpperChar)

/-- The all-zero placeholder block '00' * 16 (line 71). -/
def zeroBlock : String := "00000000000000000000000000000000"

/-- The diagnostic printed on line 62. -/
def warnTruncated (n len : Nat) : String :=
  "Warning: Block " ++ toString n ++ " had " ++ toString len ++
    " chars, truncated to 32"

/-- The diagnostic printed on line 64. -/
def warnInvalidLen (n len : Nat) : String :=
  "Warning: Block " ++ toString n ++ " has invalid length: " ++ toString len ++
    " (expected 32)"

/-- The loop of lines 52-64: for each match, clean the capture; store it if
it has exactly 32 characters; store the first 32 characters with a warning
if longer; emit a warning and store nothing if shorter.  Returns the stored
(index, data) assignments in match order together with the warnings in
print order.  A later assignment to the same index overwrites an earlier
one, which dictGet below accounts for. -/
def blocksEntries : List (Nat × List Char) → List (Nat × String) × List String
  | [] => ([], [])
  | (n, g) :: ms =>
    let d := cleanBlock g
    let rest := blocksEntries ms
    if d.length == 32 then ((n, d) :: rest.1, rest.2)
    else if 32 < d.length then
      ((n, String.mk (d.data.take 32)) :: rest.1,
        warnTruncated n d.length :: rest.2)
    else (rest.1, warnInvalidLen n d.length :: rest.2)

/-- Python dict lookup over the assignment list: the last assignment to a
key wins. -/
def dictGet (es : List (Nat × String)) (k : Nat) : Option String :=
  (es.reverse.find? (fun e => e.1 == k)).map (fun e => e.2)

/-- Lines 67-71: the 64-entry block array; indices missing from the dict
are filled with the zero block. -/
def blocksField (cs : List Char) : List String :=
  (List.range 64).map
    (fun i => (dictGet (blocksEntries (blockFind cs)).1 i).getD zeroBlock)

/-- The warnings printed while parsing the blocks. -/
def warningsField (cs : List Char) : List String :=
  (blocksEntries (blockFind cs)).2

/-- Line 24-28: the uid field. -/
def uidField (cs : List Char) : Option String := (uidSearch cs).map hexCleanup

/-- Line 31-34: the atqa field. -/
def atqaField (cs : List Char) : Option String :=
  (labelSearch atqaLabel atqaClass cs).map hexCleanup

/-- Line 37-40: the sak field. -/
def sakField (cs : List Char) : Option String :=
  (labelSearch sakLabel atqaClass cs).map hexCleanup

/-- Line 43-45: the mifare_type field (the capture is stored verbatim). -/
def mifareField (cs : List Char) : Option String :=
  (mifareSearch cs).map String.mk

/-- The record built by parse_flipper_nfc_file, plus the diagnostics it
prints (the warnings field models the print calls on lines 62 and 64). -/
structure TagParse where
  uid : Option String
  atqa : Option String
  sak : Option String
  mifare_type : Option String
  blocks : List String
  warnings : List String
deriving DecidableEq, Repr

/-- parse_flipper_nfc_file (lines 10-73), applied to the file content. -/
def parseFlipperNfc (content : String) : TagParse :=
  { uid := uidField content.data
    atqa := atqaField content.data
    sak := sakField content.data
    mifare_type := mifareField content.data
    blocks := blocksField content.data
    warnings := warningsField content.data }

/- ===== convert_all_nfc_files (convert_nfc_to_json.py lines 75-140) =====
Directory walking and file I/O are modelled by a list of input files, each
carrying the components of its path relative to the source root and its
text content; writing a JSON file is modelled by appending the document to
the output list. -/

/-- One discovered .nfc file: its path components relative to the source
root (rel_path.parts; the last component is the filename) and its text
content. -/
structure NfcFile where
  relParts : List String
  content : String

/-- The metadata object built on lines 107-118. -/
structure ConvMeta where
  original_filename : String
  original_path : String
  category : Option String
  subcategory : Option String
deriving DecidableEq, Repr

/-- The JSON document written for one converted file. -/
structure OutDoc where
  uid : Option String
  atqa : Option String
  sak : Option String
  mifare_type : Option String
  blocks : List String
  metadata : ConvMeta
deriving DecidableEq, Repr

/-- str(rel_path).replace('\\', '/'): the relative path joined with
forward slashes. -/
def joinSlash : List String → String
  | [] => ""
  | [p] => p
  | p :: ps => p ++ "/" ++ joinSlash ps

/-- Lines 100-118: the document written for a file (parse result plus
metadata; category and subcategory are parts[0] and parts[1] when those
components exist). -/
def makeOutput (f : NfcFile) : OutDoc :=
  let d := parseFlipperNfc f.content
  { uid := d.uid, atqa := d.atqa, sak := d.sak, mifare_type := d.mifare_type
    blocks := d.blocks
    metadata :=
      { original_filename := (f.relParts.getLast?).getD ""
        original_path := joinSlash f.relParts
        category := f.relParts[0]?
        subcategory := f.relParts[1]? } }

/-- Python truthiness of the uid value used on line 96: None and the empty
string are falsy. -/
def pyTruthy : Option String → Bool
  | none => false
  | some s => !(s == "")

/-- Lines 93-122 for a single file: parse it; if the uid is falsy, record
the error entry (str(nfc_file), "Missing UID") and write nothing,
otherwise write the output document. -/
def processFile (f : NfcFile) : OutDoc ⊕ (List String × String) :=
  if pyTruthy (parseFlipperNfc f.content).uid then Sum.inl (makeOutput f)
  else Sum.inr (f.relParts, "Missing UID")

/-- The loop of lines 91-130: process every file in order, collecting the
written documents and the error entries (both in processing order). -/
def convertAll : List NfcFile → List OutDoc × List (List String × String)
  | [] => ([], [])
  | f :: fs =>
    let r := convertAll fs
    match processFile f with
    | Sum.inl out => (out :: r.1, r.2)
    | Sum.inr err => (r.1, err :: r.2)

/- ===== normalize_name (enrich_character_data.py lines 277-303) ===== -/

/-- The variants list of lines 280-290, in source order. -/
def nameVariants : List String :=
  [" (Blue)", " (Legendary)", " (Silver)", " (Gold)", " (Red)", " (Clear)",
   " (GITD)", " (Metallic Purple)", " (Pearl)", " (Chrome)", " (Dark)",
   " (Flocked)", " (Sidekick)", " (SideKick)", " (Halloween)", " (Sparkle)",
   " (Scarlet)", " (Gnarly)", " (Granite)", " (Meatallic Purple)",
   " (Series 2)", " (Series 3)", " (Series 4)", " (Eons Elite)",
   " (Spring)", " (Mini)", " (Legendary Bone Bash)", " (Bone Bash)",
   " (Dark Sure Shot)", " (Shark Shooter)", " (Power Blue Double Dare)",
   " (Lava Lance)", " (Deep Dive)", " (Double Dare)", " (Sure Shot)",
   " (Bronze Bottom)", " (Gold Bottom)", " Top", " Bottom"]

/-- Lines 291-292: replace every variant with the empty string, in list
order. -/
def stripVariants (name : String) : String :=
  nameVariants.foldl (fun acc v => pyReplace acc v "") name

/-- Match \s*\(Series\s+\d+\) (re.IGNORECASE) at the start of s, returning
the rest of the text after the match.  All components are disjoint, so
matching is deterministic. -/
def matchSeriesAt (s : List Char) : Option (List Char) :=
  let s1 := s.dropWhile pySpace
  if matchStrCI "(Series".data s1 then
    let s2 := s1.drop 7
    if (s2.takeWhile pySpace).isEmpty then none
    else
      let s3 := s2.dropWhile pySpace
      let digits := s3.takeWhile isDigitChar
      if digits.isEmpty then none
      else
        match s3.drop digits.length with
        | ')' :: r => some r
        | _ => none
  else none

/-- Fuelled worker for re.sub(r'\s*\(Series\s+\d+\)', '', name,
flags=re.IGNORECASE): scan left to right, removing each match and
continuing after it.  Each step consumes at least one character. -/
def seriesSubF : Nat → List Char → List Char
  | 0, s => s
  | _, [] => []
  | fuel + 1, c :: cs =>
    match matchSeriesAt (c :: cs) with
    | some r => seriesSubF fuel r
    | none => c :: seriesSubF fuel cs

/-- Line 296: the Series re.sub. -/
def stripSeries (name : String) : String :=
  String.mk (seriesSubF name.data.length name.data)

/-- Line 297: name.replace("-", " ").replace("_", " ").strip(). -/
def replaceSeparators (name : String) : String :=
  pyStripS (pyReplace (pyReplace name "-" " ") "_" " ")

/-- Lines 300-301: the alias replacements, applied in source order. -/
def collapseAliases (name : String) : String :=
  pyReplace (pyReplace name "Crash Bash" "Bash") "Weeruptor" "Eruptor"

/-- normalize_name (lines 277-303): variants, Series re.sub, separator
replacement and strip, then the alias replacements - in exactly the order
the source applies them. -/
def normalize_name (name : String) : String :=
  collapseAliases (replaceSeparators (stripSeries (stripVariants name)))

/-- Modelled from the spec: the step order asserted by the specification
(suffix stripping, then alias collapsing, then separator replacement and
trim).  This definition follows the spec's words, for comparison with
normalize_name, which follows the source. -/
def normalizeNameSpecOrder (name : String) : String :=
  replaceSeparators (collapseAliases (stripSeries (stripVariants name)))

/- ===== find_character_data (enrich_character_data.py lines 305-318) =====
The CHARACTER_DATABASE constant is out of scope for the claims (the spec
treats the table as an opaque external data table), so the functions below
take the table as a parameter: an association list in the dict's insertion
order. -/

/-- One value of CHARACTER_DATABASE. -/
structure CharProfile where
  element : String
  biography : String
  abilities : List String
  character_type : String
deriving DecidableEq, Repr

/-- str.lower() of a String, as a character list. -/
def lowerS (s : String) : List Char := s.data.map pyLowerChar

/-- find_character_data: exact key lookup first, then the first key (in
insertion order) that is a case-insensitive substring of the normalized
name or of which the normalized name is a substring. -/
def find_character_data (db : List (String × CharProfile))
    (character_name : String) : Option CharProfile :=
  let normalized := normalize_name character_name
  match db.find? (fun p => p.1 == normalized) with
  | some p => some p.2
  | none =>
    (db.find? (fun p =>
      containsSub (lowerS p.1) (lowerS normalized) ||
        containsSub (lowerS normalized) (lowerS p.1))).map (fun p => p.2)

/- ===== enrich_json_file (enrich_character_data.py lines 320-374) =====
The JSON document is modelled by the metadata keys the function reads or
writes; all other keys pass through the function untouched.  The
interactive input() calls are modelled by a parameter holding the four
answers. -/

/-- The metadata keys consulted or written by enrich_json_file.  A missing
key is none. -/
structure EnrichMeta where
  original_filename : Option String
  element : Option String
  biography : Option String
  abilities : Option (List String)
  character_type : Option String
deriving DecidableEq, Repr

/-- The JSON document: data.get("metadata", {}) is modelled by an optional
metadata object. -/
structure CharDoc where
  metadata : Option EnrichMeta
deriving DecidableEq, Repr

/-- The status line printed by enrich_json_file for the file. -/
inductive EnrichStatus where
  | alreadyHasData
  | enriched
  | addedInteractive
  | noData
deriving DecidableEq, Repr

/-- The observable outcome of enrich_json_file on one file: the document
written back (none when the file is not rewritten), the boolean return
value, and the printed status. -/
structure EnrichResult where
  written : Option CharDoc
  returned : Bool
  status : EnrichStatus
deriving DecidableEq, Repr

/-- The four answers the operator would type in interactive mode. -/
structure ManualInputs where
  element : String
  biography : String
  abilitiesText : String
  character_type : String

/-- The empty dict used as default by data.get("metadata", {}). -/
def emptyEnrichMeta : EnrichMeta := ⟨none, none, none, none, none⟩

/-- Saving the document (lines 367-369): in Python the code mutates the
dict object obtained from data.get("metadata", {}); the mutations reach
the document only when the metadata key was present (otherwise they land
in the fresh default dict and are lost). -/
def writeBack (doc : CharDoc) (m : EnrichMeta) : CharDoc :=
  match doc.metadata with
  | some _ => { metadata := some m }
  | none => doc

/-- enrich_json_file (lines 320-374). -/
def enrich_json_file (db : List (String × CharProfile)) (doc : CharDoc)
    (interactive : Bool) (inputs : ManualInputs) : EnrichResult :=
  let metadata := doc.metadata.getD emptyEnrichMeta
  let character_name := pyReplace (metadata.original_filename.getD "") ".nfc" ""
  if pyTruthy metadata.element && pyTruthy metadata.biography then
    { written := none, returned := false, status := .alreadyHasData }
  else
    match find_character_data db character_name with
    | some cd =>
      let m := { metadata with
        element := some cd.element
        biography := some cd.biography
        abilities := some cd.abilities
        character_type := some cd.character_type }
      { written := some (writeBack doc m), returned := true, status := .enriched }
    | none =>
      if interactive then
        let e := pyStripS inputs.element
        let b := pyStripS inputs.biography
        let a := pyStripS inputs.abilitiesText
        let t := pyStripS inputs.character_type
        let m1 := if !(e == "") then { metadata with element := some e } else metadata
        let m2 := if !(b == "") then { m1 with biography := some b } else m1
        let m3 := if !(a == "") then
            { m2 with abilities := some ((pySplitComma a).map pyStripS) } else m2
        let m4 := if !(t == "") then { m3 with character_type := some t } else m3
        { written := some (writeBack doc m4), returned := true,
          status := .addedInteractive }
      else
        { written := none, returned := false, status := .noData }

/- ===== Concrete fixtures used by the claim theorems ===== -/

/-- The file content of the spec's worked example. -/
def c2text : String :=
  "UID: 04 A2 B3\nATQA: 00 04\nSAK: 08\nMifare Classic type: 1K\nBlock 0: 00 01 02 03 04 05 06 07 08 09 0A 0B 0C 0D 0E 0F\n"

/-- A valid block-0 line. -/
def c4txt : String :=
  "Block 0: 00 01 02 03 04 05 06 07 08 09 0A 0B 0C 0D 0E 0F\n"

/-- The capture of the block pattern on c4txt. -/
def c4cap : List Char :=
  "00 01 02 03 04 05 06 07 08 09 0A 0B 0C 0D 0E 0F\n".data

/-- A block line whose decimal index is 64 (out of the 0-63 output range). -/
def c6txt : String :=
  "Block 64: 11 11 11 11 11 11 11 11 11 11 11 11 11 11 11 11\n"

/-- A file sitting directly under the source root. -/
def c7file : NfcFile := { relParts := ["Spyro.nfc"], content := "UID: 04 A2 B3\n" }

/-- A file whose text has no UID line. -/
def c5file : NfcFile := { relParts := ["x.nfc"], content := "no uid here" }

/-- Metadata of an already-enriched document. -/
def c9meta : EnrichMeta :=
  { original_filename := some "Spyro.nfc"
    element := some "Magic"
    biography := some "A brave purple dragon."
    abilities := none
    character_type := none }

/-- An already-enriched document. -/
def c9doc : CharDoc := { metadata := some c9meta }

/-- A UID line whose value is whitespace with no hex digit. -/
def c10text : String := "UID: \n"

/- ===== Helper lemmas ===== -/

theorem toNat_ofNatAux (n : Nat) (h : n.isValidChar) :
    (Char.ofNatAux n h).toNat = n := rfl

theorem hexCI_pyUpper {c : Char} (h : isHexCI c = true) :
    isUpperHex (pyUpperChar c) = true := by
  simp only [isHexCI, Bool.or_eq_true, Bool.and_eq_true, decide_eq_true_eq] at h
  unfold pyUpperChar
  split
  · simp only [isUpperHex, toNat_ofNatAux, Bool.or_eq_true, Bool.and_eq_true,
      decide_eq_true_eq]
    omega
  · simp only [isUpperHex, Bool.or_eq_true, Bool.and_eq_true, decide_eq_true_eq]
    omega

theorem hexCI_not_space {c : Char} (h : isHexCI c = true) : pySpace c = false := by
  simp only [isHexCI, Bool.or_eq_true, Bool.and_eq_true, decide_eq_true_eq] at h
  simp only [pySpace, Bool.or_eq_false_iff, beq_eq_false_iff_ne, ne_eq]
  omega

theorem space_not_hexCI {c : Char} (h : pySpace c = true) : isHexCI c = false := by
  simp only [pySpace, Bool.or_eq_true, beq_iff_eq] at h
  simp only [isHexCI, Bool.or_eq_false_iff, Bool.and_eq_false_iff,
    decide_eq_false_iff_not]
  omega

/-- Soundness of matchPairs: the capture consists of hex and whitespace
characters only and contains exactly 2 * n hex characters. -/
theorem matchPairs_sound :
    ∀ (n : Nat) (s g r : List Char), matchPairs n s = some (g, r) →
      (∀ c ∈ g, isHexCI c = true ∨ pySpace c = true) ∧
      (g.filter (fun c => !pySpace c)).length = 2 * n := by
  intro n
  induction n with
  | zero =>
    intro s g r h
    simp only [matchPairs, Option.some.injEq, Prod.mk.injEq] at h
    obtain ⟨rfl, rfl⟩ := h
    simp
  | succ n ih =>
    intro s g r h
    match s with
    | [] => simp [matchPairs] at h
    | [c] => simp [matchPairs] at h
    | c1 :: c2 :: s' =>
      simp only [matchPairs] at h
      split at h
      case isFalse => exact absurd h (by simp)
      case isTrue hhex =>
        cases hm : matchPairs n (s'.dropWhile pySpace) with
        | none => rw [hm] at h; exact absurd h (by simp)
        | some gr =>
          obtain ⟨g', r'⟩ := gr
          rw [hm] at h
          simp only [Option.some.injEq, Prod.mk.injEq] at h
          obtain ⟨hg, hr⟩ := h
          subst hg
          subst hr
          obtain ⟨hmem, hlen⟩ := ih _ _ _ hm
          obtain ⟨h1, h2⟩ := Bool.and_eq_true .. |>.mp hhex
          constructor
          · intro c hc
            simp only [List.mem_cons, List.mem_append] at hc
            rcases hc with rfl | rfl | hc | hc
            · exact Or.inl h1
            · exact Or.inl h2
            · exact Or.inr (List.mem_takeWhile_imp hc)
            · exact hmem c hc
          · have hws : (s'.takeWhile pySpace).filter (fun c => !pySpace c) = [] := by
              rw [List.filter_eq_nil_iff]
              intro a ha
              simp [List.mem_takeWhile_imp ha]
            simp only [List.filter_cons, List.filter_append, hws, List.nil_append,
              hexCI_not_space h1, hexCI_not_space h2, Bool.not_false, if_true,
              List.length_cons, hlen]
            omega

/-- Soundness of matchBlockAt: the second capture group consists of hex and
whitespace characters only, with exactly 32 hex characters. -/
theorem matchBlockAt_sound {s : List Char} {n : Nat} {g r : List Char}
    (h : matchBlockAt s = some (n, g, r)) :
    (∀ c ∈ g, isHexCI c = true ∨ pySpace c = true) ∧
    (g.filter (fun c => !pySpace c)).length = 32 := by
  simp only [matchBlockAt] at h
  split at h
  · exact absurd h (by simp)
  · split at h
    · exact absurd h (by simp)
    · split at h
      case h_2 => exact absurd h (by simp)
      case h_1 s2 heq =>
        split at h
        case h_2 => exact absurd h (by simp)
        case h_1 g' r' hm =>
          simp only [Option.some.injEq, Prod.mk.injEq] at h
          obtain ⟨-, hg, hr⟩ := h
          subst hg
          subst hr
          exact matchPairs_sound 16 _ _ _ hm

/-- Soundness of the block finditer loop: every capture it produces has
exactly 32 hex characters plus whitespace. -/
theorem blockFindF_sound :
    ∀ (fuel : Nat) (s : List Char) (n : Nat) (g : List Char),
      (n, g) ∈ blockFindF fuel s →
      (∀ c ∈ g, isHexCI c = true ∨ pySpace c = true) ∧
      (g.filter (fun c => !pySpace c)).length = 32 := by
  intro fuel
  induction fuel with
  | zero => intro s n g h; simp [blockFindF] at h
  | succ fuel ih =>
    intro s n g h
    match s with
    | [] => simp [blockFindF] at h
    | c :: cs =>
      simp only [blockFindF] at h
      split at h
      · cases hm : matchBlockAt ((c :: cs).drop blockLabel.length) with
        | none => rw [hm] at h; exact ih cs n g h
        | some t =>
          obtain ⟨n', g', r'⟩ := t
          rw [hm] at h
          rcases List.mem_cons.mp h with heq | h
          · obtain ⟨rfl, rfl⟩ := Prod.mk.injEq .. |>.mp heq
            exact matchBlockAt_sound hm
          · exact ih r' n g h
      · exact ih cs n g h

/-- The cleaned capture of any block match: 32 characters, all uppercase
hex. -/
theorem cleanBlock_of_match {cs : List Char} {n : Nat} {g : List Char}
    (h : (n, g) ∈ blockFind cs) :
    (cleanBlock g).length = 32 ∧
    ∀ c ∈ (cleanBlock g).data, isUpperHex c = true := by
  obtain ⟨hmem, hlen⟩ := blockFindF_sound cs.length cs n g h
  constructor
  · show ((g.filter (fun c => !pySpace c)).map pyUpperChar).length = 32
    rw [List.length_map, hlen]
  · intro c hc
    have hc2 : c ∈ (g.filter (fun c => !pySpace c)).map pyUpperChar := hc
    obtain ⟨c', hc', rfl⟩ := List.mem_map.mp hc2
    have hg := List.mem_of_mem_filter hc'
    have hns := List.of_mem_filter hc'
    rcases hmem c' hg with hx | hx
    · exact hexCI_pyUpper hx
    · simp [hx] at hns

/-- Since every capture cleans to exactly 32 characters, the storing loop
accepts every match verbatim and never emits a warning. -/
theorem blocksEntries_allValid :
    ∀ (ms : List (Nat × List Char)),
      (∀ p ∈ ms, (cleanBlock p.2).length = 32) →
      blocksEntries ms = (ms.map (fun p => (p.1, cleanBlock p.2)), []) := by
  intro ms
  induction ms with
  | nil => intro _; rfl
  | cons p ms ih =>
    intro h
    obtain ⟨n, g⟩ := p
    have hd : (cleanBlock g).length = 32 := h (n, g) (List.mem_cons_self _ _)
    have ih2 := ih (fun q hq => h q (List.mem_cons_of_mem _ hq))
    simp only [blocksEntries, hd, ih2, List.map_cons]
    simp

/-- The assignments made while parsing any text are exactly the cleaned
captures, in match order, with no warnings. -/
theorem blocksEntries_blockFind (cs : List Char) :
    blocksEntries (blockFind cs) =
      ((blockFind cs).map (fun p => (p.1, cleanBlock p.2)), []) := by
  apply blocksEntries_allValid
  intro p hp
  obtain ⟨n, g⟩ := p
  exact (cleanBlock_of_match hp).1

/-- A successful dict lookup comes from some match with that index. -/
theorem dictGet_some_of_match {cs : List Char} {i : Nat} {v : String}
    (h : dictGet (blocksEntries (blockFind cs)).1 i = some v) :
    ∃ g, (i, g) ∈ blockFind cs ∧ v = cleanBlock g := by
  rw [blocksEntries_blockFind] at h
  unfold dictGet at h
  cases hf : ((blockFind cs).map (fun p => (p.1, cleanBlock p.2))).reverse.find?
      (fun e => e.1 == i) with
  | none => rw [hf] at h; exact absurd h (by simp)
  | some e =>
    rw [hf] at h
    have he := List.mem_of_find?_eq_some hf
    have hp := List.find?_some hf
    rw [List.mem_reverse] at he
    obtain ⟨⟨n, g⟩, hq, hqe⟩ := List.mem_map.mp he
    subst hqe
    have hn : n = i := by simpa using hp
    subst hn
    refine ⟨g, hq, ?_⟩
    simpa using h.symm

/-- When no match carries the index, the dict lookup fails. -/
theorem dictGet_none_of_no_match {cs : List Char} {i : Nat}
    (h : ∀ g, (i, g) ∉ blockFind cs) :
    dictGet (blocksEntries (blockFind cs)).1 i = none := by
  rw [blocksEntries_blockFind]
  unfold dictGet
  have hf : ((blockFind cs).map (fun p => (p.1, cleanBlock p.2))).reverse.find?
      (fun e => e.1 == i) = none := by
    rw [List.find?_eq_none]
    intro e he hbe
    rw [List.mem_reverse] at he
    obtain ⟨⟨n, g⟩, hq, hqe⟩ := List.mem_map.mp he
    subst hqe
    have hn : n = i := by simpa using hbe
    subst hn
    exact h g hq
  rw [hf]
  rfl

/-- Every character of the stripped string comes from the original. -/
theorem mem_pyStrip {a : Char} {l : List Char} (h : a ∈ pyStrip l) : a ∈ l := by
  unfold pyStrip at h
  rw [List.mem_reverse] at h
  have h2 := List.Sublist.mem h (List.dropWhile_sublist _)
  rw [List.mem_reverse] at h2
  exact List.Sublist.mem h2 (List.dropWhile_sublist _)

/- ===== Claim theorems ===== -/

/-- Claim C1: for every input text, the record produced by
parse_flipper_nfc_file has a blocks sequence of exactly 64 entries; every
entry is a string of exactly 32 uppercase hex characters; and every index
0-63 for which the text has no block match is filled with the 32-zero
placeholder. -/
theorem parse_blocks_invariant (text : String) :
    (parseFlipperNfc text).blocks.length = 64 ∧
    (∀ b ∈ (parseFlipperNfc text).blocks,
      b.length = 32 ∧ ∀ c ∈ b.data, isUpperHex c = true) ∧
    (∀ i : Nat, i < 64 → (∀ g, (i, g) ∉ blockFind text.data) →
      (parseFlipperNfc text).blocks[i]? = some zeroBlock) := by
  refine ⟨?_, ?_, ?_⟩
  · show (blocksField text.data).length = 64
    simp [blocksField]
  · intro b hb
    have hb2 : b ∈ (List.range 64).map
        (fun i => (dictGet (blocksEntries (blockFind text.data)).1 i).getD zeroBlock) :=
      hb
    obtain ⟨i, -, rfl⟩ := List.mem_map.mp hb2
    cases hd : dictGet (blocksEntries (blockFind text.data)).1 i with
    | none => exact ⟨by decide, by decide⟩
    | some v =>
      obtain ⟨g, hg, rfl⟩ := dictGet_some_of_match hd
      simpa using cleanBlock_of_match hg
  · intro i hi hno
    show (blocksField text.data)[i]? = some zeroBlock
    unfold blocksField
    rw [List.getElem?_map, List.getElem?_range hi]
    simp only [Option.map_some']
    rw [dictGet_none_of_no_match hno]
    rfl

/-- Witness for C1 at the empty text, block zeroBlock and index 0. -/
theorem parse_blocks_invariant_witness :
    (zeroBlock ∈ (parseFlipperNfc "").blocks ∧
      zeroBlock.length = 32 ∧ (∀ c ∈ zeroBlock.data, isUpperHex c = true)) ∧
    ((0 : Nat) < 64 ∧ (parseFlipperNfc "").blocks[0]? = some zeroBlock) := by
  refine ⟨⟨by decide, (parse_blocks_invariant "").2.1 zeroBlock (by decide)⟩,
    by decide, (parse_blocks_invariant "").2.2 0 (by decide) ?_⟩
  intro g hg
  have hg2 : (0, g) ∈ ([] : List (Nat × List Char)) := hg
  simp at hg2

/-- Claim C2: parsing the worked example of the spec yields exactly the
stated record (and no diagnostics). -/
theorem parse_worked_example :
    parseFlipperNfc c2text =
      { uid := some "04A2B3", atqa := some "0004", sak := some "08",
        mifare_type := some "1K",
        blocks := "000102030405060708090A0B0C0D0E0F" ::
          List.replicate 63 "00000000000000000000000000000000",
        warnings := [] } := by rfl

/-- Counterexample to claim C3: the ATQA pattern has no re.IGNORECASE
flag, so a lowercase atqa: label is not matched at all, while the
uppercase label is. -/
theorem atqa_lowercase_not_matched :
    (parseFlipperNfc "ATQA: 00 04\n").atqa = some "0004" ∧
    (parseFlipperNfc "atqa: 00 04\n").atqa = none := ⟨rfl, rfl⟩

/-- Amended claim C3: the UID and Block patterns are case-insensitive in
label and hex digits with uppercased output, but the ATQA/SAK/Mifare-type
patterns are case-sensitive: a lowercase sak: label is not matched, and a
lowercase hex digit stops the ATQA value capture. -/
theorem case_sensitivity_split :
    (parseFlipperNfc "uid: 0a b2\n").uid = some "0AB2" ∧
    (parseFlipperNfc "UID: 0A B2\n").uid = some "0AB2" ∧
    (parseFlipperNfc "block 0: aa bb cc dd ee ff 00 11 22 33 44 55 66 77 88 99\n").blocks[0]?
      = some "AABBCCDDEEFF00112233445566778899" ∧
    (parseFlipperNfc "sak: 08\n").sak = none ∧
    (parseFlipperNfc "ATQA: 0a 04\n").atqa = some "0" :=
  ⟨rfl, rfl, rfl, rfl, rfl⟩

/-- Counterexample to claim C4: no input text can produce a block capture
whose cleaned content is longer or shorter than 32 characters - the
pattern captures exactly 16 hex pairs - so the truncation branch and the
rejection branch are unreachable. -/
theorem block_never_truncated_or_rejected :
    (¬ ∃ (text : String) (n : Nat) (g : List Char),
        (n, g) ∈ blockFind text.data ∧ 32 < (cleanBlock g).length) ∧
    (¬ ∃ (text : String) (n : Nat) (g : List Char),
        (n, g) ∈ blockFind text.data ∧ (cleanBlock g).length < 32) := by
  constructor
  · rintro ⟨text, n, g, hm, hlen⟩
    have h32 := (cleanBlock_of_match hm).1
    omega
  · rintro ⟨text, n, g, hm, hlen⟩
    have h32 := (cleanBlock_of_match hm).1
    omega

/-- Amended claim C4: every matched block line cleans to exactly 32
characters and is stored verbatim; a line with the wrong amount of hex
simply never matches the pattern, so its index stays absent and is
zero-filled by the assembly step. -/
theorem block_capture_exact_32 (text : String) (n : Nat) (g : List Char)
    (h : (n, g) ∈ blockFind text.data) :
    (cleanBlock g).length = 32 ∧
    (n, cleanBlock g) ∈ (blocksEntries (blockFind text.data)).1 := by
  refine ⟨(cleanBlock_of_match h).1, ?_⟩
  rw [blocksEntries_blockFind]
  exact List.mem_map.mpr ⟨(n, g), h, rfl⟩

/-- Witness for the amended C4 at a concrete block-0 line. -/
theorem block_capture_exact_32_witness :
    ((0, c4cap) ∈ blockFind c4txt.data) ∧
    ((cleanBlock c4cap).length = 32 ∧
      (0, cleanBlock c4cap) ∈ (blocksEntries (blockFind c4txt.data)).1) :=
  ⟨by decide, block_capture_exact_32 c4txt 0 c4cap (by decide)⟩

/-- Claim C5: a file whose text has no UID match is skipped; no output
document is produced, exactly one error entry (path, "Missing UID") is
recorded, and the remaining files are processed unchanged. -/
theorem missing_uid_skips_file (f : NfcFile) (files : List NfcFile)
    (h : uidSearch f.content.data = none) :
    convertAll (f :: files) =
      ((convertAll files).1, (f.relParts, "Missing UID") :: (convertAll files).2) := by
  have hu : (parseFlipperNfc f.content).uid = none := by
    show uidField f.content.data = none
    unfold uidField
    rw [h]
    rfl
  have hp : processFile f = Sum.inr (f.relParts, "Missing UID") := by
    unfold processFile
    rw [hu]
    rfl
  simp only [convertAll, hp]

/-- Witness for C5 at a concrete file with no UID line. -/
theorem missing_uid_skips_file_witness :
    uidSearch c5file.content.data = none ∧
    convertAll [c5file] = ([], [(["x.nfc"], "Missing UID")]) :=
  ⟨by decide, missing_uid_skips_file c5file [] (by decide)⟩

/-- Counterexample to claim C6: a line matching the block pattern with
decimal index 64 is matched, its data appears nowhere in the output (all
64 slots are the zero placeholder), and no diagnostic line is emitted. -/
theorem block64_dropped_silently :
    (blockFind c6txt.data).map Prod.fst = [64] ∧
    (parseFlipperNfc c6txt).blocks = List.replicate 64 zeroBlock ∧
    (parseFlipperNfc c6txt).warnings = [] := ⟨rfl, rfl, rfl⟩

/-- Amended claim C6: the parser never emits any diagnostic line (the two
warning branches are unreachable), so whatever it discards - in
particular a matched block line with index 64 or more - is dropped
silently. -/
theorem parser_never_warns (text : String) :
    (parseFlipperNfc text).warnings = [] := by
  show warningsField text.data = []
  unfold warningsField
  rw [blocksEntries_blockFind]

/-- Counterexample to claim C7: for a file directly under the source root
the category is the filename itself (parts[0] is never absent), not
null. -/
theorem category_counterexample :
    (convertAll [c7file]).1.map (fun o => o.metadata.category) = [some "Spyro.nfc"] ∧
    (convertAll [c7file]).1.map (fun o => o.metadata.subcategory) = [none] :=
  ⟨rfl, rfl⟩

/-- Amended claim C7: category and subcategory are the first and second
components of the relative path; subcategory is absent when the path has
fewer than two components, but category - being the first component - is
the filename itself for a file directly under the source root. -/
theorem category_is_first_component (f : NfcFile) :
    (makeOutput f).metadata.category = f.relParts[0]? ∧
    (makeOutput f).metadata.subcategory = f.relParts[1]? ∧
    (f.relParts.length ≤ 1 → (makeOutput f).metadata.subcategory = none) := by
  refine ⟨rfl, rfl, ?_⟩
  intro hlen
  show f.relParts[1]? = none
  exact List.getElem?_eq_none hlen

/-- Witness for the amended C7 at a single-component path. -/
theorem category_is_first_component_witness :
    (makeOutput c7file).metadata.category = some "Spyro.nfc" ∧
    (makeOutput c7file).metadata.subcategory = none :=
  ⟨((category_is_first_component c7file).1).trans (by decide),
    (category_is_first_component c7file).2.2 (by decide)⟩

/-- Counterexample to claim C8: normalize_name collapses aliases only
after replacing hyphens, so "Crash-Bash" becomes "Bash"; under the
claimed order (aliases before separator replacement) it would stay
"Crash Bash". -/
theorem normalize_name_order_counterexample :
    normalize_name "Crash-Bash" = "Bash" ∧
    normalizeNameSpecOrder "Crash-Bash" = "Crash Bash" ∧
    normalize_name "Crash-Bash" ≠ normalizeNameSpecOrder "Crash-Bash" :=
  ⟨by decide, by decide, by decide⟩

/-- Amended claim C8: normalize_name strips the fixed suffix variants and
the Series markers first, then replaces hyphens and underscores with
spaces and trims, and only then collapses the known aliases. -/
theorem normalize_name_order (name : String) :
    normalize_name name =
      collapseAliases (replaceSeparators (stripSeries (stripVariants name))) ∧
    normalize_name "Spyro (Legendary)" = "Spyro" ∧
    normalize_name "Eye-Brawl" = "Eye Brawl" ∧
    normalize_name "Weeruptor" = "Eruptor" ∧
    normalize_name "Crash Bash" = "Bash" :=
  ⟨rfl, by decide, by decide, by decide, by decide⟩

/-- Claim C9: a document whose metadata already holds a non-empty element
and a non-empty biography is not rewritten, is reported as already
enriched, and the function returns false. -/
theorem skip_already_enriched (db : List (String × CharProfile)) (doc : CharDoc)
    (interactive : Bool) (inputs : ManualInputs) (m : EnrichMeta) (e b : String)
    (hm : doc.metadata = some m) (he : m.element = some e) (hene : e ≠ "")
    (hb : m.biography = some b) (hbne : b ≠ "") :
    enrich_json_file db doc interactive inputs =
      { written := none, returned := false, status := .alreadyHasData } := by
  have h1 : pyTruthy m.element = true := by
    rw [he]
    simp only [pyTruthy, Bool.not_eq_true', beq_eq_false_iff_ne, ne_eq]
    exact hene
  have h2 : pyTruthy m.biography = true := by
    rw [hb]
    simp only [pyTruthy, Bool.not_eq_true', beq_eq_false_iff_ne, ne_eq]
    exact hbne
  unfold enrich_json_file
  rw [hm]
  simp [h1, h2]

/-- Witness for C9 at a concrete already-enriched document. -/
theorem skip_already_enriched_witness :
    (c9doc.metadata = some c9meta ∧ c9meta.element = some "Magic" ∧
      ("Magic" : String) ≠ "" ∧
      c9meta.biography = some "A brave purple dragon." ∧
      ("A brave purple dragon." : String) ≠ "") ∧
    enrich_json_file [] c9doc false ⟨"", "", "", ""⟩ =
      { written := none, returned := false, status := .alreadyHasData } :=
  ⟨⟨rfl, rfl, by decide, rfl, by decide⟩,
    skip_already_enriched [] c9doc false ⟨"", "", "", ""⟩ c9meta "Magic"
      "A brave purple dragon." rfl rfl (by decide) rfl (by decide)⟩

/-- Claim C10: when the UID regex matches but captures only whitespace,
the parsed uid is the empty string (not null), and the converter treats
the file exactly like a missing UID: no output is written and a
"Missing UID" error entry is recorded while processing continues. -/
theorem blank_uid_treated_as_missing (text : String) (cap : List Char)
    (h1 : uidSearch text.data = some cap) (_h2 : cap ≠ [])
    (h3 : ∀ c ∈ cap, pySpace c = true) :
    (parseFlipperNfc text).uid = some "" ∧
    ∀ (parts : List String) (files : List NfcFile),
      convertAll ({ relParts := parts, content := text } :: files) =
        ((convertAll files).1, (parts, "Missing UID") :: (convertAll files).2) := by
  have huid : (parseFlipperNfc text).uid = some "" := by
    show uidField text.data = some ""
    unfold uidField
    rw [h1]
    show some (hexCleanup cap) = some ""
    have hfil : (pyStrip cap).filter isHexCI = [] := by
      rw [List.filter_eq_nil_iff]
      intro a ha
      simp [space_not_hexCI (h3 a (mem_pyStrip ha))]
    unfold hexCleanup
    rw [hfil]
    rfl
  refine ⟨huid, ?_⟩
  intro parts files
  have hp : processFile { relParts := parts, content := text } =
      Sum.inr (parts, "Missing UID") := by
    unfold processFile
    rw [show (parseFlipperNfc text).uid = some "" from huid]
    rfl
  simp only [convertAll, hp]

/-- Witness for C10 at the concrete content "UID: \n". -/
theorem blank_uid_witness :
    uidSearch c10text.data = some ['\n'] ∧ (['\n'] : List Char) ≠ [] ∧
    (∀ c ∈ (['\n'] : List Char), pySpace c = true) ∧
    ((parseFlipperNfc c10text).uid = some "" ∧
      convertAll [{ relParts := ["a.nfc"], content := c10text }] =
        ([], [(["a.nfc"], "Missing UID")])) := by
  have h := blank_uid_treated_as_missing c10text ['\n'] (by decide) (by decide)
    (by decide)
  exact ⟨by decide, by decide, by decide, h.1, h.2 ["a.nfc"] []⟩
